import Mathlib

/-!
Verification of the irradiance-field solver variants of the
radiation-exposure repository.

The repository contains four Python variants that compute the irradiance
field of a planar rectangular light source on a parallel rectangular
receiver:

* main2.py, function calculate_irradiance_vectorized (vectorized loop);
* interactive_app.py, method calculate_irradiance_vectorized
  (vectorized loop with swapped source indices);
* main.py, functions ps_from_point / ps_for_target / ps_for_all / main
  (async variant stepping Decimal counters);
* incupsulation.py, functions calculate_irradiance_optimized and
  calculate_irradiance_extended_model (JIT-parallel kernel with adaptive
  source sampling and a small-distance correction).

The embedding models Python floats and Decimals by exact rationals, and
np.pi by an explicit positive rational parameter piv that is passed to
every top-level field function (no claim depends on the numeric value of
pi, only on its positivity).  All per-pair contributions in the source
use the cosine only through its square, cos_a = L / sqrt(d) followed by
cos_a ** 2, which equals L^2 / d exactly; the embedding therefore
represents that squared cosine directly and avoids irrational square
roots.  Arrays are embedded as functions of their indices, and each
result array as the function taking a (row, col) cell index to the cell
value.
-/

/-- Squared cosine of the incidence angle as computed in every variant:
the source computes cos_a = L_sr / sqrt(dx^2 + dy^2 + L_sr^2) (main2.py
line 35, interactive_app.py line 75, main.py line 16, incupsulation.py
line 79) and then uses only cos_a ** 2, which equals
L_sr^2 / (dx^2 + dy^2 + L_sr^2). -/
def cos_sq (L_sr dx dy : ℚ) : ℚ :=
  L_sr ^ 2 / (dx ^ 2 + dy ^ 2 + L_sr ^ 2)

/-- Per-pair term of main2.py line 36 and interactive_app.py line 76:
result += I_i * cos_a**2 / L_sr**2.  The same expression is the body of
ps_from_point in main.py line 17. -/
def vec_term (I_i L_sr dx dy : ℚ) : ℚ :=
  I_i * cos_sq L_sr dx dy / L_sr ^ 2

/-- Per-pair term of incupsulation.py line 84:
irradiance = I_i * (cos_alpha**2) / distance_sq, with
distance_sq = dx**2 + dy**2 + L_sr**2 (line 74). -/
def incup_term (I_i L_sr dx dy : ℚ) : ℚ :=
  I_i * cos_sq L_sr dx dy / (dx ^ 2 + dy ^ 2 + L_sr ^ 2)

/-- Per-pair irradiance contribution as the spec states it:
E = I_i * cos^2(alpha) / r^2 with r^2 = dx^2 + dy^2 + L^2 and
cos(alpha) = L / sqrt(r^2).  This definition follows the words of the
spec and exists to be compared with the per-pair terms of the code. -/
def spec_per_pair_E (I_i L_sr dx dy : ℚ) : ℚ :=
  I_i * cos_sq L_sr dx dy / (dx ^ 2 + dy ^ 2 + L_sr ^ 2)

/-- Value i of np.linspace(start, stop, num): start + i * step with
step = (stop - start) / (num - 1).  For num = 1 numpy returns the single
value start, matched here because division by zero yields zero in ℚ. -/
def linspace (start stop : ℚ) (num : ℕ) (i : ℕ) : ℚ :=
  start + i * ((stop - start) / ((num : ℚ) - 1))

/-- Cell (row, col) of the result of calculate_irradiance_vectorized in
main2.py (lines 5-38).  Receiver grid x_r = linspace(0, l_r, accuracy),
y_r = linspace(0, h_r, accuracy) with X_r, Y_r = meshgrid(x_r, y_r), so
cell (row, col) evaluates at (x_r[col], y_r[row]); source grid
x_s = linspace(0, l_s, accuracy) + x, y_s = linspace(0, h_s, accuracy) + y;
I_i = p / (pi * accuracy^2); the loop adds I_i * cos_a**2 / L_sr**2 with
dx = X_r - x_s[i], dy = Y_r - y_s[j], and the result is divided by 0.005.
The parameter piv stands for np.pi. -/
def calculate_irradiance_vectorized (piv p l_r h_r x y L_sr l_s h_s : ℚ)
    (accuracy : ℕ) (row col : ℕ) : ℚ :=
  (∑ i in Finset.range accuracy, ∑ j in Finset.range accuracy,
    vec_term (p / (piv * (accuracy : ℚ) ^ 2)) L_sr
      (linspace 0 l_r accuracy col - (linspace 0 l_s accuracy i + x))
      (linspace 0 h_r accuracy row - (linspace 0 h_s accuracy j + y))) / 0.005

/-- Cell (row, col) of the result of calculate_irradiance_vectorized in
interactive_app.py (lines 48-78).  Identical to the main2.py variant
except that in the loop dx uses x_s[j] and dy uses y_s[i]
(lines 72-73). -/
def interactive_irradiance (piv p l_r h_r x y L_sr l_s h_s : ℚ)
    (accuracy : ℕ) (row col : ℕ) : ℚ :=
  (∑ i in Finset.range accuracy, ∑ j in Finset.range accuracy,
    vec_term (p / (piv * (accuracy : ℚ) ^ 2)) L_sr
      (linspace 0 l_r accuracy col - (linspace 0 l_s accuracy j + x))
      (linspace 0 h_r accuracy row - (linspace 0 h_s accuracy i + y))) / 0.005

/-- ps_from_point of main.py (lines 10-17): contribution of source
sample (xs + x_pos, ys + y_pos) at receiver point (x, y); the body is
I_i * cos_a**2 / L_sr**2 with dx = xs_actual - x, dy = ys_actual - y. -/
def ps_from_point (x y xs ys x_pos y_pos L_sr I_i : ℚ) : ℚ :=
  vec_term I_i L_sr (xs + x_pos - x) (ys + y_pos - y)

/-- Grid point i of the Decimal stepping loops of main.py: both
ps_for_target and ps_for_all start a counter at 0 and repeatedly add
len / m, so iteration i sees the value i * (len / m).  The Decimal
arithmetic of the source is modelled exactly by rationals. -/
def main_step_grid (len : ℚ) (m : ℕ) (i : ℕ) : ℚ :=
  i * (len / m)

/-- ps_for_target of main.py (lines 21-34): sums ps_from_point over the
source samples produced by the while loops xs = 0; while xs < l_s:
xs += l_s/m (and likewise for ys).  The filter captures the loop guard;
for 0 < l_s every index below m passes it and the loop performs exactly
m iterations. -/
def ps_for_target (x y l_s h_s x_pos y_pos L_sr I_i : ℚ) (m : ℕ) : ℚ :=
  ∑ k in (Finset.range m).filter (fun k => main_step_grid l_s m k < l_s),
    ∑ j in (Finset.range m).filter (fun j => main_step_grid h_s m j < h_s),
      ps_from_point x y (main_step_grid l_s m k) (main_step_grid h_s m j)
        x_pos y_pos L_sr I_i

/-- Cell (xi, yi) of the result of ps_for_all in main.py (lines 36-63):
the loops run while x < l_r and xi < m (and y < h_r and yi < m), with
x stepping by l_r / m; a cell outside the executed index range keeps its
initial value 0. -/
def ps_for_all (m : ℕ) (l_r h_r l_s h_s x_pos y_pos L_sr I_i : ℚ)
    (xi yi : ℕ) : ℚ :=
  if main_step_grid l_r m xi < l_r ∧ xi < m ∧
      main_step_grid h_r m yi < h_r ∧ yi < m then
    ps_for_target (main_step_grid l_r m xi) (main_step_grid h_r m yi)
      l_s h_s x_pos y_pos L_sr I_i m
  else 0

/-- Cell (xi, yi) of the async variant main of main.py (lines 69-85):
I_i = p / (pi * accuracy^2) and the raw field is divided by 0.005.  The
parameter piv stands for np.pi. -/
def main_async (piv p l_r h_r x y L_sr l_s h_s : ℚ) (accuracy : ℕ)
    (xi yi : ℕ) : ℚ :=
  ps_for_all accuracy l_r h_r l_s h_s x y L_sr
    (p / (piv * (accuracy : ℚ) ^ 2)) xi yi / 0.005

/-- source_points_factor of incupsulation.py line 195:
max(2, min(10, match // 10)). -/
def source_points_factor (accuracy : ℕ) : ℕ :=
  max 2 (min 10 (accuracy / 10))

/-- num_source_points of incupsulation.py line 200:
len(x_s_points) * len(y_s_points), both lengths being
source_points_factor. -/
def num_source_points (accuracy : ℕ) : ℕ :=
  source_points_factor accuracy * source_points_factor accuracy

/-- Intensity per source point of incupsulation.py lines 201-204:
power_per_point = p / num_source_points and I_i = power_per_point / pi.
The parameter piv stands for np.pi. -/
def incup_I_i (piv p : ℚ) (accuracy : ℕ) : ℚ :=
  p / (num_source_points accuracy : ℚ) / piv

/-- Cell of the result of calculate_irradiance_optimized in
incupsulation.py (lines 26-89), viewed at one receiver cell: X_r and
Y_r are the cell coordinates, the double loop over the source samples
accumulates I_i * cos_alpha**2 / distance_sq. -/
def calculate_irradiance_optimized (X_r Y_r : ℚ) (x_s_points y_s_points : ℕ → ℚ)
    (num_x_s num_y_s : ℕ) (L_sr I_i : ℚ) : ℚ :=
  ∑ i in Finset.range num_x_s, ∑ j in Finset.range num_y_s,
    incup_term I_i L_sr (X_r - x_s_points i) (Y_r - y_s_points j)

/-- Accumulated field of calculate_irradiance_extended_model in
incupsulation.py (lines 186-207) before the small-distance correction:
receiver grid by linspace over [0, l_r] and [0, h_r] with meshgrid
indexing xy (cell (row, col) is (x_r[col], y_r[row])), source grid by
linspace over [-l_s/2, l_s/2] and [-h_s/2, h_s/2] shifted by the source
center (x, y), source_points_factor samples per axis. -/
def incup_raw (piv p l_r h_r x y L_sr l_s h_s : ℚ) (accuracy : ℕ)
    (row col : ℕ) : ℚ :=
  calculate_irradiance_optimized
    (linspace 0 l_r accuracy col) (linspace 0 h_r accuracy row)
    (fun i => linspace (-(l_s / 2)) (l_s / 2) (source_points_factor accuracy) i + x)
    (fun j => linspace (-(h_s / 2)) (h_s / 2) (source_points_factor accuracy) j + y)
    (source_points_factor accuracy) (source_points_factor accuracy)
    L_sr (incup_I_i piv p accuracy)

/-- Cell (row, col) of the result of calculate_irradiance_extended_model
in incupsulation.py (lines 167-215): the accumulated field, multiplied
by size_correction = 1.0 + 0.1 * (max(l_s, h_s) / L_sr) when
L_sr < max(l_s, h_s) * 10 (lines 209-213). -/
def calculate_irradiance_extended_model (piv p l_r h_r x y L_sr l_s h_s : ℚ)
    (accuracy : ℕ) (row col : ℕ) : ℚ :=
  if L_sr < max l_s h_s * 10 then
    incup_raw piv p l_r h_r x y L_sr l_s h_s accuracy row col *
      (1 + 0.1 * (max l_s h_s / L_sr))
  else
    incup_raw piv p l_r h_r x y L_sr l_s h_s accuracy row col

/-! Helper lemmas about the per-pair terms. -/

/-- Squared separation is positive whenever the standoff is nonzero. -/
lemma dist_sq_pos (L_sr dx dy : ℚ) (hL : 0 < L_sr) :
    0 < dx ^ 2 + dy ^ 2 + L_sr ^ 2 := by
  have h1 : 0 < L_sr ^ 2 := pow_pos hL 2
  have h2 : 0 ≤ dx ^ 2 := sq_nonneg dx
  have h3 : 0 ≤ dy ^ 2 := sq_nonneg dy
  linarith

/-- Dividing the cosine-squared weight by L_sr^2 instead of r^2 cancels
the weighting: the term collapses to a pure inverse square. -/
lemma vec_term_eq_inverse_square (I_i L_sr dx dy : ℚ) (hL : 0 < L_sr) :
    vec_term I_i L_sr dx dy = I_i / (dx ^ 2 + dy ^ 2 + L_sr ^ 2) := by
  have hd : (dx ^ 2 + dy ^ 2 + L_sr ^ 2) ≠ 0 := ne_of_gt (dist_sq_pos L_sr dx dy hL)
  have hL2 : L_sr ≠ 0 := ne_of_gt hL
  unfold vec_term cos_sq
  field_simp
  ring

lemma incup_term_neg_left (I_i L_sr dx dy : ℚ) :
    incup_term I_i L_sr (-dx) dy = incup_term I_i L_sr dx dy := by
  simp [incup_term, cos_sq, neg_sq]

lemma incup_term_swap (I_i L_sr dx dy : ℚ) :
    incup_term I_i L_sr dx dy = incup_term I_i L_sr dy dx := by
  unfold incup_term cos_sq
  ring_nf

lemma vec_term_smul (c I_i L_sr dx dy : ℚ) :
    vec_term (c * I_i) L_sr dx dy = c * vec_term I_i L_sr dx dy := by
  unfold vec_term
  ring

lemma incup_term_smul (c I_i L_sr dx dy : ℚ) :
    incup_term (c * I_i) L_sr dx dy = c * incup_term I_i L_sr dx dy := by
  unfold incup_term
  ring

lemma vec_term_nonneg (I_i L_sr dx dy : ℚ) (hI : 0 ≤ I_i) :
    0 ≤ vec_term I_i L_sr dx dy := by
  unfold vec_term cos_sq
  have hd : 0 ≤ dx ^ 2 + dy ^ 2 + L_sr ^ 2 := by positivity
  exact div_nonneg (mul_nonneg hI (div_nonneg (sq_nonneg _) hd)) (sq_nonneg _)

lemma vec_term_pos (I_i L_sr dx dy : ℚ) (hI : 0 < I_i) (hL : 0 < L_sr) :
    0 < vec_term I_i L_sr dx dy := by
  unfold vec_term cos_sq
  exact div_pos
    (mul_pos hI (div_pos (pow_pos hL 2) (dist_sq_pos L_sr dx dy hL)))
    (pow_pos hL 2)

lemma incup_term_nonneg (I_i L_sr dx dy : ℚ) (hI : 0 ≤ I_i) :
    0 ≤ incup_term I_i L_sr dx dy := by
  unfold incup_term cos_sq
  have hd : 0 ≤ dx ^ 2 + dy ^ 2 + L_sr ^ 2 := by positivity
  exact div_nonneg (mul_nonneg hI (div_nonneg (sq_nonneg _) hd)) hd

lemma incup_term_pos (I_i L_sr dx dy : ℚ) (hI : 0 < I_i) (hL : 0 < L_sr) :
    0 < incup_term I_i L_sr dx dy := by
  unfold incup_term cos_sq
  have hd := dist_sq_pos L_sr dx dy hL
  exact div_pos (mul_pos hI (div_pos (pow_pos hL 2) hd)) hd

/-! Claims C1 and C10: the per-pair contribution formula. -/

/-- Claim C1 fails as stated: at I_i = 1, L_sr = 1, dx = 1, dy = 0 the
per-pair contribution actually added by main2.py (and by the identical
expressions in interactive_app.py and main.py) is
I_i * cos_a^2 / L_sr^2 = 1/2, while the spec formula
I_i * cos^2(alpha) / r^2 gives 1/4. -/
theorem per_pair_formula_counterexample :
    vec_term 1 1 1 0 ≠ spec_per_pair_E 1 1 1 0 := by
  norm_num [vec_term, spec_per_pair_E, cos_sq]

/-- Claim C1 amended: the spec formula E = I_i * cos^2(alpha) / r^2
matches the JIT-parallel kernel of incupsulation.py, but main2.py, the
interactive vectorized loop and main.py divide by L_sr^2 instead of r^2,
so their per-pair contribution is I_i * cos^2(alpha) / L_sr^2, which
equals I_i / r^2. -/
theorem per_pair_formula_amended
    (I_i L_sr dx dy x y xs ys x_pos y_pos : ℚ) (hL : 0 < L_sr) :
    incup_term I_i L_sr dx dy = spec_per_pair_E I_i L_sr dx dy ∧
    vec_term I_i L_sr dx dy = I_i / (dx ^ 2 + dy ^ 2 + L_sr ^ 2) ∧
    ps_from_point x y xs ys x_pos y_pos L_sr I_i =
      I_i / ((xs + x_pos - x) ^ 2 + (ys + y_pos - y) ^ 2 + L_sr ^ 2) := by
  refine ⟨rfl, vec_term_eq_inverse_square I_i L_sr dx dy hL, ?_⟩
  unfold ps_from_point
  exact vec_term_eq_inverse_square I_i L_sr _ _ hL

/-- Witness for the amended claim C1 at I_i = 1, L_sr = 1, dx = 1,
dy = 0 and a concrete main.py sample. -/
theorem per_pair_formula_amended_witness :
    (0 : ℚ) < 1 ∧
    (incup_term 1 1 1 0 = spec_per_pair_E 1 1 1 0 ∧
     vec_term 1 1 1 0 = 1 / ((1 : ℚ) ^ 2 + (0 : ℚ) ^ 2 + (1 : ℚ) ^ 2) ∧
     ps_from_point 0 0 1 0 0 0 1 1 =
       1 / (((1 : ℚ) + 0 - 0) ^ 2 + ((0 : ℚ) + 0 - 0) ^ 2 + (1 : ℚ) ^ 2)) :=
  ⟨by norm_num, per_pair_formula_amended 1 1 1 0 0 0 1 0 0 0 (by norm_num)⟩

/-- Claim C10: in the three variants that divide by L_sr^2 (main.py,
main2.py, interactive_app.py), for every L_sr > 0 and all offsets the
per-pair contribution I_i * (L_sr / sqrt(dx^2 + dy^2 + L_sr^2))^2 / L_sr^2
is identically I_i / (dx^2 + dy^2 + L_sr^2): a pure inverse square of
the 3-D separation with no net cosine weighting.  The term of
interactive_app.py is literally the vec_term expression shared with
main2.py. -/
theorem vec_kernel_is_pure_inverse_square
    (I_i L_sr dx dy x y xs ys x_pos y_pos : ℚ) (hL : 0 < L_sr) :
    vec_term I_i L_sr dx dy = I_i / (dx ^ 2 + dy ^ 2 + L_sr ^ 2) ∧
    ps_from_point x y xs ys x_pos y_pos L_sr I_i =
      I_i / ((xs + x_pos - x) ^ 2 + (ys + y_pos - y) ^ 2 + L_sr ^ 2) := by
  refine ⟨vec_term_eq_inverse_square I_i L_sr dx dy hL, ?_⟩
  unfold ps_from_point
  exact vec_term_eq_inverse_square I_i L_sr _ _ hL

/-- Witness for claim C10 at I_i = 1, L_sr = 2, dx = 2, dy = 0 and a
concrete main.py sample. -/
theorem vec_kernel_is_pure_inverse_square_witness :
    (0 : ℚ) < 2 ∧
    (vec_term 1 2 2 0 = 1 / ((2 : ℚ) ^ 2 + (0 : ℚ) ^ 2 + (2 : ℚ) ^ 2) ∧
     ps_from_point 0 0 2 0 0 0 2 1 =
       1 / (((2 : ℚ) + 0 - 0) ^ 2 + ((0 : ℚ) + 0 - 0) ^ 2 + (2 : ℚ) ^ 2)) :=
  ⟨by norm_num, vec_kernel_is_pure_inverse_square 1 2 2 0 0 0 2 0 0 0 (by norm_num)⟩

/-! Claim C5: receiver grid construction. -/

/-- Claim C5 fails as stated for main.py: with l_r = 1 and N = 2 the
receiver grid point of index 1 built by the Decimal stepping loop of
main.py is 1 * (1 / 2) = 1/2, not the claimed 1 * 1 / (2 - 1) = 1. -/
theorem receiver_grid_counterexample :
    main_step_grid 1 2 1 ≠ 1 * 1 / ((2 : ℚ) - 1) := by
  norm_num [main_step_grid]

/-- Claim C5 amended: main2.py, interactive_app.py and incupsulation.py
build the receiver grid with numpy linspace, x_r[i] = i * l_r / (N - 1),
an evenly spaced grid inclusive of both endpoints with N - 1 intervals
per axis; main.py instead steps by l_r / N, so its grid is
x_r[i] = i * l_r / N for i in [0, N), which excludes the far endpoint. -/
theorem receiver_grid_amended (len : ℚ) (n i : ℕ) (hn : 2 ≤ n) :
    linspace 0 len n i = i * len / ((n : ℚ) - 1) ∧
    linspace 0 len n (n - 1) = len ∧
    main_step_grid len n i = i * len / (n : ℚ) := by
  have hn1 : ((n : ℚ) - 1) ≠ 0 := by
    have h2 : (2 : ℚ) ≤ (n : ℚ) := by exact_mod_cast hn
    linarith
  refine ⟨by unfold linspace; ring, ?_, by unfold main_step_grid; ring⟩
  have hcast : ((n - 1 : ℕ) : ℚ) = (n : ℚ) - 1 := by
    have h1 : 1 ≤ n := le_trans (by norm_num) hn
    rw [Nat.cast_sub h1, Nat.cast_one]
  unfold linspace
  rw [hcast]
  field_simp

/-- Witness for the amended claim C5 at len = 1, N = 2, i = 1. -/
theorem receiver_grid_amended_witness :
    2 ≤ 2 ∧
    (linspace 0 1 2 1 = 1 * 1 / ((2 : ℚ) - 1) ∧
     linspace 0 1 2 (2 - 1) = 1 ∧
     main_step_grid 1 2 1 = 1 * 1 / (2 : ℚ)) := by
  refine ⟨by norm_num, ?_⟩
  have h := receiver_grid_amended 1 2 1 (by norm_num)
  exact_mod_cast h

/-! Claim C6: the small-distance correction. -/

/-- Claim C6: the extended model of incupsulation.py equals the raw
accumulated field multiplied cell-wise by 1 + 0.1 * max(l_s, h_s) / L_sr
exactly when L_sr < 10 * max(l_s, h_s), and is the unscaled raw field
otherwise. -/
theorem small_distance_correction (piv p l_r h_r x y L_sr l_s h_s : ℚ)
    (accuracy row col : ℕ) :
    calculate_irradiance_extended_model piv p l_r h_r x y L_sr l_s h_s accuracy row col =
      (if L_sr < 10 * max l_s h_s then 1 + 0.1 * (max l_s h_s / L_sr) else 1) *
        incup_raw piv p l_r h_r x y L_sr l_s h_s accuracy row col := by
  unfold calculate_irradiance_extended_model
  rw [show max l_s h_s * 10 = 10 * max l_s h_s from mul_comm _ _]
  split_ifs with h
  · ring
  · ring

/-! Claim C7: adaptive source sampling and power distribution. -/

/-- Claim C7: the adaptive variant samples the source at
clamp(N // 10, 2, 10) = max(2, min(10, N // 10)) points per axis, a
count always between 2 and 10; the total power is distributed uniformly
over the square of that count and the per-point radiant intensity is
power_per_point / pi. -/
theorem adaptive_source_sampling (n : ℕ) (piv p : ℚ) :
    source_points_factor n = max 2 (min 10 (n / 10)) ∧
    2 ≤ source_points_factor n ∧
    source_points_factor n ≤ 10 ∧
    num_source_points n = source_points_factor n ^ 2 ∧
    incup_I_i piv p n = p / ((source_points_factor n : ℚ) ^ 2) / piv := by
  refine ⟨rfl, le_max_left _ _, max_le (by norm_num) (min_le_left _ _), ?_, ?_⟩
  · unfold num_source_points
    exact (pow_two _).symm
  · unfold incup_I_i num_source_points
    push_cast
    rw [pow_two]

/-! Claim C2: equivalence of the four variants. -/

/-- Claim C2 fails as stated: on the common valid input piv = 1, p = 1,
receiver 1 x 1, source 1 x 1 at (0, 0), L_sr = 1, accuracy = 2, cell
(0, 0) of main2.py is 350/3 while the extended model of incupsulation.py
gives 22/45 and the async variant of main.py gives 490/3. -/
theorem variant_equivalence_counterexample :
    calculate_irradiance_vectorized 1 1 1 1 0 0 1 1 1 2 0 0 ≠
      calculate_irradiance_extended_model 1 1 1 1 0 0 1 1 1 2 0 0 ∧
    calculate_irradiance_vectorized 1 1 1 1 0 0 1 1 1 2 0 0 ≠
      main_async 1 1 1 1 0 0 1 1 1 2 0 0 := by
  constructor
  · norm_num [calculate_irradiance_vectorized, calculate_irradiance_extended_model,
      incup_raw, calculate_irradiance_optimized, incup_I_i, num_source_points,
      source_points_factor, incup_term, vec_term, cos_sq, linspace,
      Finset.sum_range_succ, Finset.sum_range_zero]
  · norm_num [calculate_irradiance_vectorized, main_async, ps_for_all,
      ps_for_target, ps_from_point, main_step_grid, vec_term, cos_sq, linspace,
      Finset.sum_filter, Finset.sum_range_succ, Finset.sum_range_zero]

/-- Claim C2 amended: only the two vectorized-loop variants (main2.py
and interactive_app.py) produce the same irradiance field cell for cell,
on every input; the JIT-parallel variant of incupsulation.py and the
async variant of main.py differ from them (different per-pair kernel,
source grid anchoring and sampling density, and normalization). -/
theorem vectorized_variants_agree (piv p l_r h_r x y L_sr l_s h_s : ℚ)
    (accuracy row col : ℕ) :
    calculate_irradiance_vectorized piv p l_r h_r x y L_sr l_s h_s accuracy row col =
      interactive_irradiance piv p l_r h_r x y L_sr l_s h_s accuracy row col := by
  unfold calculate_irradiance_vectorized interactive_irradiance
  congr 1
  rw [Finset.sum_comm]

/-! Claim C3: error handling. -/

/-- Claim C3 fails as stated: with receiver length l_r = -1, an invalid
geometry, the main2.py solver does not fail with InvalidGeometry or any
other error: it is a total function that returns an ordinary numeric
array, whose cell (0, 1) evaluates to 60. -/
theorem no_validation_counterexample :
    calculate_irradiance_vectorized 1 1 (-1) 1 0 0 1 1 1 2 0 1 = 60 := by
  norm_num [calculate_irradiance_vectorized, vec_term, cos_sq, linspace,
    Finset.sum_range_succ, Finset.sum_range_zero]

/-- Claim C3 amended: the solver performs no input validation at all; on
a non-positive dimension (l_r = -1), on accuracy = 1 < 2, and on a
non-positive standoff (L_sr = -1) it silently returns a numeric array
instead of failing; no InvalidGeometry, InvalidGrid or InvalidDistance
failure exists anywhere in the code. -/
theorem no_validation_amended :
    calculate_irradiance_vectorized 1 1 (-1) 1 0 0 1 1 1 2 0 1 = 60 ∧
    calculate_irradiance_vectorized 1 1 1 1 0 0 1 1 1 1 0 0 = 200 ∧
    calculate_irradiance_vectorized 1 1 1 1 0 0 (-1) 1 1 2 0 0 = 350 / 3 := by
  refine ⟨?_, ?_, ?_⟩ <;>
    norm_num [calculate_irradiance_vectorized, vec_term, cos_sq, linspace,
      Finset.sum_range_succ, Finset.sum_range_zero]

/-! Claims C4 and C8: output contract and linearity in the power. -/

lemma source_points_factor_pos (n : ℕ) : 0 < source_points_factor n :=
  lt_of_lt_of_le (by norm_num) (le_max_left 2 (min 10 (n / 10)))

lemma num_source_points_cast_pos (n : ℕ) :
    (0 : ℚ) < (num_source_points n : ℚ) := by
  have h : 0 < num_source_points n :=
    Nat.mul_pos (source_points_factor_pos n) (source_points_factor_pos n)
  exact_mod_cast h

lemma incup_raw_nonneg (piv p l_r h_r x y L_sr l_s h_s : ℚ)
    (accuracy row col : ℕ) (hI : 0 ≤ incup_I_i piv p accuracy) :
    0 ≤ incup_raw piv p l_r h_r x y L_sr l_s h_s accuracy row col := by
  unfold incup_raw calculate_irradiance_optimized
  exact Finset.sum_nonneg fun i _ =>
    Finset.sum_nonneg fun j _ => incup_term_nonneg _ _ _ _ hI

lemma incup_raw_pos (piv p l_r h_r x y L_sr l_s h_s : ℚ)
    (accuracy row col : ℕ) (hI : 0 < incup_I_i piv p accuracy)
    (hL : 0 < L_sr) :
    0 < incup_raw piv p l_r h_r x y L_sr l_s h_s accuracy row col := by
  unfold incup_raw calculate_irradiance_optimized
  have hne : (Finset.range (source_points_factor accuracy)).Nonempty :=
    Finset.nonempty_range_iff.mpr (source_points_factor_pos accuracy).ne'
  exact Finset.sum_pos
    (fun i _ => Finset.sum_pos (fun j _ => incup_term_pos _ _ _ _ hI hL) hne) hne

lemma incup_raw_at_zero_power (piv l_r h_r x y L_sr l_s h_s : ℚ)
    (accuracy row col : ℕ) :
    incup_raw piv 0 l_r h_r x y L_sr l_s h_s accuracy row col = 0 := by
  unfold incup_raw calculate_irradiance_optimized incup_I_i incup_term
  simp

/-- Claim C4: for every valid input with standoff L_sr > 0, every cell
of the main2.py field and of the incupsulation.py extended field is a
well-defined non-negative rational; every cell is strictly positive
whenever p > 0; and the field is identically zero when p = 0, so the
returned array is all-zero only in the degenerate case p = 0. -/
theorem output_contract (piv p l_r h_r x y L_sr l_s h_s : ℚ)
    (accuracy row col : ℕ) (hpiv : 0 < piv) (hL : 0 < L_sr) (hp : 0 ≤ p)
    (hacc : 2 ≤ accuracy) (hls : 0 < l_s) :
    (0 ≤ calculate_irradiance_vectorized piv p l_r h_r x y L_sr l_s h_s accuracy row col ∧
     0 ≤ calculate_irradiance_extended_model piv p l_r h_r x y L_sr l_s h_s accuracy row col) ∧
    (0 < p →
     0 < calculate_irradiance_vectorized piv p l_r h_r x y L_sr l_s h_s accuracy row col ∧
     0 < calculate_irradiance_extended_model piv p l_r h_r x y L_sr l_s h_s accuracy row col) ∧
    (p = 0 →
     calculate_irradiance_vectorized piv p l_r h_r x y L_sr l_s h_s accuracy row col = 0 ∧
     calculate_irradiance_extended_model piv p l_r h_r x y L_sr l_s h_s accuracy row col = 0) := by
  have hmax : 0 < max l_s h_s := lt_of_lt_of_le hls (le_max_left _ _)
  have hfac : 0 < 1 + 0.1 * (max l_s h_s / L_sr) := by
    have h1 : 0 < max l_s h_s / L_sr := div_pos hmax hL
    nlinarith
  have haccQ : (0 : ℚ) < (accuracy : ℚ) ^ 2 := by
    have h0 : 0 < accuracy := by omega
    have h1 : (0 : ℚ) < (accuracy : ℚ) := by exact_mod_cast h0
    positivity
  have hIvec0 : 0 ≤ p / (piv * (accuracy : ℚ) ^ 2) :=
    div_nonneg hp (le_of_lt (mul_pos hpiv haccQ))
  have hIinc0 : 0 ≤ incup_I_i piv p accuracy := by
    unfold incup_I_i
    exact div_nonneg (div_nonneg hp (le_of_lt (num_source_points_cast_pos accuracy))) hpiv.le
  have hne : (Finset.range accuracy).Nonempty :=
    Finset.nonempty_range_iff.mpr (by omega)
  refine ⟨⟨?_, ?_⟩, fun hp0 => ⟨?_, ?_⟩, fun hp0 => ⟨?_, ?_⟩⟩
  · unfold calculate_irradiance_vectorized
    refine div_nonneg ?_ (by norm_num)
    exact Finset.sum_nonneg fun i _ =>
      Finset.sum_nonneg fun j _ => vec_term_nonneg _ _ _ _ hIvec0
  · unfold calculate_irradiance_extended_model
    split_ifs with h
    · exact mul_nonneg
        (incup_raw_nonneg piv p l_r h_r x y L_sr l_s h_s accuracy row col hIinc0)
        hfac.le
    · exact incup_raw_nonneg piv p l_r h_r x y L_sr l_s h_s accuracy row col hIinc0
  · unfold calculate_irradiance_vectorized
    refine div_pos ?_ (by norm_num)
    have hIvec1 : 0 < p / (piv * (accuracy : ℚ) ^ 2) :=
      div_pos hp0 (mul_pos hpiv haccQ)
    exact Finset.sum_pos
      (fun i _ => Finset.sum_pos (fun j _ => vec_term_pos _ _ _ _ hIvec1 hL) hne) hne
  · unfold calculate_irradiance_extended_model
    have hIinc1 : 0 < incup_I_i piv p accuracy := by
      unfold incup_I_i
      exact div_pos (div_pos hp0 (num_source_points_cast_pos accuracy)) hpiv
    split_ifs with h
    · exact mul_pos
        (incup_raw_pos piv p l_r h_r x y L_sr l_s h_s accuracy row col hIinc1 hL) hfac
    · exact incup_raw_pos piv p l_r h_r x y L_sr l_s h_s accuracy row col hIinc1 hL
  · subst hp0
    unfold calculate_irradiance_vectorized vec_term
    simp
  · subst hp0
    unfold calculate_irradiance_extended_model
    rw [incup_raw_at_zero_power]
    simp

/-- Witness for claim C4 on the valid input piv = 1, p = 1, receiver
1 x 1, source 1 x 1 at (0, 0), L_sr = 1, accuracy = 2, cell (0, 0). -/
theorem output_contract_witness :
    (0 : ℚ) < 1 ∧ (0 : ℚ) ≤ 1 ∧ 2 ≤ 2 ∧
    ((0 ≤ calculate_irradiance_vectorized 1 1 1 1 0 0 1 1 1 2 0 0 ∧
      0 ≤ calculate_irradiance_extended_model 1 1 1 1 0 0 1 1 1 2 0 0) ∧
     ((0 : ℚ) < 1 →
      0 < calculate_irradiance_vectorized 1 1 1 1 0 0 1 1 1 2 0 0 ∧
      0 < calculate_irradiance_extended_model 1 1 1 1 0 0 1 1 1 2 0 0) ∧
     ((1 : ℚ) = 0 →
      calculate_irradiance_vectorized 1 1 1 1 0 0 1 1 1 2 0 0 = 0 ∧
      calculate_irradiance_extended_model 1 1 1 1 0 0 1 1 1 2 0 0 = 0)) :=
  ⟨by norm_num, by norm_num, by norm_num,
    output_contract 1 1 1 1 0 0 1 1 1 2 0 0 (by norm_num) (by norm_num)
      (by norm_num) (by norm_num) (by norm_num)⟩

lemma vec_field_smul (c piv p l_r h_r x y L_sr l_s h_s : ℚ)
    (accuracy row col : ℕ) :
    calculate_irradiance_vectorized piv (c * p) l_r h_r x y L_sr l_s h_s accuracy row col =
      c * calculate_irradiance_vectorized piv p l_r h_r x y L_sr l_s h_s accuracy row col := by
  unfold calculate_irradiance_vectorized
  rw [mul_div_assoc c p]
  simp only [vec_term_smul, ← Finset.mul_sum]
  ring

lemma incup_I_i_smul (c piv p : ℚ) (n : ℕ) :
    incup_I_i piv (c * p) n = c * incup_I_i piv p n := by
  unfold incup_I_i
  rw [mul_div_assoc, mul_div_assoc]

lemma incup_raw_smul (c piv p l_r h_r x y L_sr l_s h_s : ℚ)
    (accuracy row col : ℕ) :
    incup_raw piv (c * p) l_r h_r x y L_sr l_s h_s accuracy row col =
      c * incup_raw piv p l_r h_r x y L_sr l_s h_s accuracy row col := by
  unfold incup_raw calculate_irradiance_optimized
  rw [incup_I_i_smul]
  simp only [incup_term_smul, ← Finset.mul_sum]

/-- Claim C8: doubling the power with everything else fixed exactly
doubles every cell of the field, both for main2.py and for the extended
model of incupsulation.py. -/
theorem field_linear_in_power (piv p l_r h_r x y L_sr l_s h_s : ℚ)
    (accuracy row col : ℕ) :
    calculate_irradiance_vectorized piv (2 * p) l_r h_r x y L_sr l_s h_s accuracy row col =
      2 * calculate_irradiance_vectorized piv p l_r h_r x y L_sr l_s h_s accuracy row col ∧
    calculate_irradiance_extended_model piv (2 * p) l_r h_r x y L_sr l_s h_s accuracy row col =
      2 * calculate_irradiance_extended_model piv p l_r h_r x y L_sr l_s h_s accuracy row col := by
  refine ⟨vec_field_smul 2 piv p l_r h_r x y L_sr l_s h_s accuracy row col, ?_⟩
  unfold calculate_irradiance_extended_model
  rw [incup_raw_smul]
  split_ifs with h
  · ring
  · rfl

/-! Claim C9: rotational symmetry of the centered square configuration. -/

/-- Reflecting a linspace grid index over [0, len] reflects the grid
point about the midpoint len / 2. -/
lemma linspace_reflect (len : ℚ) (n i : ℕ) (hn : 2 ≤ n) (hi : i < n) :
    linspace 0 len n (n - 1 - i) - len / 2 = -(linspace 0 len n i - len / 2) := by
  have h1 : ((n - 1 - i : ℕ) : ℚ) = (n : ℚ) - 1 - (i : ℚ) := by
    have hle : 1 + i ≤ n := by omega
    rw [Nat.sub_sub, Nat.cast_sub hle]
    push_cast
    ring
  have hn1 : ((n : ℚ) - 1) ≠ 0 := by
    have h2 : (2 : ℚ) ≤ (n : ℚ) := by exact_mod_cast hn
    linarith
  unfold linspace
  rw [h1]
  field_simp
  ring

/-- Reflecting an index of the centered source grid
linspace(-s/2, s/2, F) negates the sample coordinate. -/
lemma linspace_center_reflect (s : ℚ) (F k : ℕ) (hF : 2 ≤ F) (hk : k < F) :
    linspace (-(s / 2)) (s / 2) F (F - 1 - k) =
      -linspace (-(s / 2)) (s / 2) F k := by
  have h1 : ((F - 1 - k : ℕ) : ℚ) = (F : ℚ) - 1 - (k : ℚ) := by
    have hle : 1 + k ≤ F := by omega
    rw [Nat.sub_sub, Nat.cast_sub hle]
    push_cast
    ring
  have hF1 : ((F : ℚ) - 1) ≠ 0 := by
    have h2 : (2 : ℚ) ≤ (F : ℚ) := by exact_mod_cast hF
    linarith
  unfold linspace
  rw [h1]
  field_simp
  ring

/-- Swapping the two arguments of the accumulated double sum over a
shared set of source offsets swaps the roles of the two receiver
coordinates. -/
lemma incup_sum_swap (F : ℕ) (u : ℕ → ℚ) (I_i L_sr a b : ℚ) :
    (∑ k in Finset.range F, ∑ m in Finset.range F,
      incup_term I_i L_sr (a - u k) (b - u m)) =
    ∑ k in Finset.range F, ∑ m in Finset.range F,
      incup_term I_i L_sr (b - u k) (a - u m) := by
  rw [Finset.sum_comm]
  exact Finset.sum_congr rfl fun k _ =>
    Finset.sum_congr rfl fun m _ => incup_term_swap _ _ _ _

/-- Negating the first receiver coordinate leaves the accumulated double
sum unchanged when the source offsets are symmetric about zero. -/
lemma incup_sum_reflect (F : ℕ) (u : ℕ → ℚ)
    (hrev : ∀ k, k < F → u (F - 1 - k) = -u k) (I_i L_sr a b : ℚ) :
    (∑ k in Finset.range F, ∑ m in Finset.range F,
      incup_term I_i L_sr (-a - u k) (b - u m)) =
    ∑ k in Finset.range F, ∑ m in Finset.range F,
      incup_term I_i L_sr (a - u k) (b - u m) :=
  calc
    (∑ k in Finset.range F, ∑ m in Finset.range F,
        incup_term I_i L_sr (-a - u k) (b - u m)) =
        ∑ k in Finset.range F, ∑ m in Finset.range F,
          incup_term I_i L_sr (-a - u (F - 1 - k)) (b - u m) :=
      (Finset.sum_range_reflect
        (fun k => ∑ m in Finset.range F,
          incup_term I_i L_sr (-a - u k) (b - u m)) F).symm
    _ = ∑ k in Finset.range F, ∑ m in Finset.range F,
          incup_term I_i L_sr (a - u k) (b - u m) := by
      refine Finset.sum_congr rfl fun k hk =>
        Finset.sum_congr rfl fun m _ => ?_
      rw [hrev k (Finset.mem_range.mp hk)]
      rw [show -a - -u k = -(a - u k) from by ring]
      exact incup_term_neg_left I_i L_sr _ _

/-- Claim C9: for a square receiver (h_r = l_r), a square source
(h_s = l_s) centered exactly at the receiver center (l_r/2, l_r/2), the
extended-model field of incupsulation.py is symmetric under a 90 degree
rotation about the grid center: result[i][j] = result[j][N-1-i]. -/
theorem rotational_symmetry (piv p l_r L_sr l_s : ℚ) (n i j : ℕ)
    (hn : 2 ≤ n) (hi : i < n) (_hj : j < n) :
    calculate_irradiance_extended_model piv p l_r l_r (l_r / 2) (l_r / 2)
        L_sr l_s l_s n i j =
      calculate_irradiance_extended_model piv p l_r l_r (l_r / 2) (l_r / 2)
        L_sr l_s l_s n j (n - 1 - i) := by
  have hF : 2 ≤ source_points_factor n := le_max_left _ _
  have hrev : ∀ k, k < source_points_factor n →
      linspace (-(l_s / 2)) (l_s / 2) (source_points_factor n)
          (source_points_factor n - 1 - k) =
        -linspace (-(l_s / 2)) (l_s / 2) (source_points_factor n) k :=
    fun k hk => linspace_center_reflect l_s (source_points_factor n) k hF hk
  have hraw : incup_raw piv p l_r l_r (l_r / 2) (l_r / 2) L_sr l_s l_s n i j =
      incup_raw piv p l_r l_r (l_r / 2) (l_r / 2) L_sr l_s l_s n j (n - 1 - i) := by
    simp only [incup_raw, calculate_irradiance_optimized]
    have harg : ∀ (t k : ℕ),
        linspace 0 l_r n t -
            (linspace (-(l_s / 2)) (l_s / 2) (source_points_factor n) k + l_r / 2) =
          (linspace 0 l_r n t - l_r / 2) -
            linspace (-(l_s / 2)) (l_s / 2) (source_points_factor n) k :=
      fun t k => by ring
    simp only [harg]
    rw [linspace_reflect l_r n i hn hi]
    exact ((incup_sum_reflect (source_points_factor n)
        (fun k => linspace (-(l_s / 2)) (l_s / 2) (source_points_factor n) k)
        hrev (incup_I_i piv p n) L_sr (linspace 0 l_r n i - l_r / 2)
        (linspace 0 l_r n j - l_r / 2)).trans
      (incup_sum_swap (source_points_factor n)
        (fun k => linspace (-(l_s / 2)) (l_s / 2) (source_points_factor n) k)
        (incup_I_i piv p n) L_sr (linspace 0 l_r n i - l_r / 2)
        (linspace 0 l_r n j - l_r / 2))).symm
  unfold calculate_irradiance_extended_model
  rw [hraw]

/-- Witness for claim C9 at l_r = 2, L_sr = 1, l_s = 1, N = 3, i = 0,
j = 1. -/
theorem rotational_symmetry_witness :
    2 ≤ 3 ∧ 0 < 3 ∧ 1 < 3 ∧
    calculate_irradiance_extended_model 1 1 2 2 (2 / 2) (2 / 2) 1 1 1 3 0 1 =
      calculate_irradiance_extended_model 1 1 2 2 (2 / 2) (2 / 2) 1 1 1 3 1 (3 - 1 - 0) :=
  ⟨by norm_num, by norm_num, by norm_num,
    rotational_symmetry 1 1 2 1 1 3 0 1 (by norm_num) (by norm_num) (by norm_num)⟩
